import Mathlib

/-!
Shallow embedding of the bad-block discovery / translation / remediation engine
of `src/libpmem2/badblocks_ndctl.c` (PMDK).  Machine integers are modelled as
`Nat` with explicit reduction modulo `2^64` (C `unsigned long long`) or `2^32`
(C `unsigned`) at the operations where the C code can wrap.
-/

namespace Pmdk

/-- `ULLONG_MAX`, the platform's "unknown" sentinel for 64-bit accessors. -/
def ULLONG_MAX : Nat := 2 ^ 64 - 1

/-- C `unsigned long long` addition (wraps modulo `2^64`). -/
def add64 (a b : Nat) : Nat := (a + b) % 2 ^ 64

/-- C `unsigned long long` subtraction (two's-complement wrap modulo `2^64`). -/
def sub64 (a b : Nat) : Nat := (a + (2 ^ 64 - b % 2 ^ 64)) % 2 ^ 64

/-- The C cast `(unsigned)` to a 32-bit value, as in `bb.length = (unsigned)(bb_len)`. -/
def toU32 (n : Nat) : Nat := n % 2 ^ 32

/-- The C cast of a 32-bit unsigned value to `int`, as in `bb_found = (int)bbs->bb_cnt`. -/
def i32ofU32 (n : Nat) : Int := if n < 2 ^ 31 then (n : Int) else (n : Int) - 2 ^ 32

/-- Modelled from the spec: `NO_HEALTHY_REPLICA` (header not under `src/`);
"`-1` denotes unknown, the only value this core ever sets". -/
def NO_HEALTHY_REPLICA : Int := -1

/-- Modelled from the spec: the `SEC2B` macro (header not under `src/`);
raw records are "sector-addressed (512-byte units)". -/
def SEC2B (n : Nat) : Nat := 512 * n

/-- Modelled from the spec: the `ALIGN_UP` macro (header not under `src/`);
"round `bb_len` up to the next block-size multiple". -/
def ALIGN_UP (size align : Nat) : Nat := (size + align - 1) / align * align

/-- `struct bad_block` (widths modelled from the spec's data model:
`offset: u64`, `length: u32`, `nhealthy: i32`; the struct header is not
under `src/`, but the `(unsigned)` length casts are in the source). -/
structure bad_block where
  offset : Nat
  length : Nat
  nhealthy : Int
deriving Repr, DecidableEq

/-- `struct badblocks`: `ns_resource` plus the record vector; the invariant
`bb_cnt == len(bbv)` is kept by representing the vector as a list. -/
structure badblocks where
  ns_resource : Nat
  bbv : List bad_block
deriving Repr, DecidableEq

/-- `struct extent` from `src/libpmem2/extent.h` (all fields `uint64_t`). -/
structure extent where
  offset_physical : Nat
  offset_logical : Nat
  length : Nat
deriving Repr, DecidableEq

/-- `struct extents` from `src/libpmem2/extent.h`
(`extents_count` is the length of the list). -/
structure extents where
  blksize : Nat
  extents : List extent
deriving Repr, DecidableEq

/-! ### Namespace bounds resolver (`badblocks_get_namespace_bounds`, lines 38-110) -/

/-- The platform readings consumed by `badblocks_get_namespace_bounds`:
presence of the optional `pfn` / `dax` sub-objects together with the values
their resource/size accessors would return, the namespace-level accessor
values, and the region's resource offset. -/
structure NsConfig where
  pfn : Option (Nat × Nat)
  dax : Option (Nat × Nat)
  ns_resource : Nat
  ns_size : Nat
  region_resource : Nat
deriving Repr, DecidableEq

/-- Tail of `badblocks_get_namespace_bounds` (lines 100-109): check the
region's resource offset for the sentinel and make `ns_offset` region-relative
by the u64 subtraction `*ns_offset -= region_offset`. -/
def boundsFinish (c : NsConfig) (off sz : Nat) : Option (Nat × Nat) :=
  if c.region_resource = ULLONG_MAX then none
  else some (sub64 off c.region_resource, sz)

/-- `badblocks_get_namespace_bounds` (lines 38-110): dispatch on which optional
sub-object is present (pfn, else dax, else raw/btt), fail on any accessor
returning `ULLONG_MAX`, then subtract the region's resource offset. -/
def badblocks_get_namespace_bounds (c : NsConfig) : Option (Nat × Nat) :=
  match c.pfn with
  | some (res, sz) =>
    if res = ULLONG_MAX then none
    else if sz = ULLONG_MAX then none
    else boundsFinish c res sz
  | none =>
    match c.dax with
    | some (res, sz) =>
      if res = ULLONG_MAX then none
      else if sz = ULLONG_MAX then none
      else boundsFinish c res sz
    | none =>
      if c.ns_resource = ULLONG_MAX then none
      else if c.ns_size = ULLONG_MAX then none
      else boundsFinish c c.ns_resource c.ns_size

/-- The kind-specific (resource offset, size) accessor pair selected by the
branch structure of `badblocks_get_namespace_bounds`: the pfn accessors if the
pfn sub-object is present, else the dax accessors if the dax sub-object is
present, else the raw/btt namespace-level accessors. -/
def nsKindAccessors (c : NsConfig) : Nat × Nat :=
  match c.pfn with
  | some (r, s) => (r, s)
  | none =>
    match c.dax with
    | some (r, s) => (r, s)
    | none => (c.ns_resource, c.ns_size)

/-! ### Region-scoped defect collection
(`badblocks_get_badblocks_by_region`, lines 120-198) -/

/-- One raw defect record as enumerated by `ndctl_region_badblock_foreach`:
offset and length in 512-byte sectors, offset region-relative.  Modelled from
the spec (the libndctl struct is not under `src/`). -/
structure ndctl_badblock where
  offset : Nat
  len : Nat
deriving Repr, DecidableEq

/-- Loop body of `badblocks_get_badblocks_by_region` (lines 150-189):
convert sectors to bytes, skip records with no overlap against the namespace
window, clip to the intersection, re-express relative to `ns_beg`, and build
the record with the `(unsigned)` length cast (line 176). -/
def region_bb_filter (ns_beg ns_end : Nat) (bb : ndctl_badblock) : Option bad_block :=
  let bb_beg := SEC2B bb.offset
  let bb_end := sub64 (add64 bb_beg (SEC2B bb.len)) 1
  if bb_beg > ns_end ∨ ns_beg > bb_end then none
  else
    let beg := if bb_beg > ns_beg then bb_beg else ns_beg
    let e := if bb_end < ns_end then bb_end else ns_end
    some ⟨sub64 beg ns_beg, toU32 (add64 (sub64 e beg) 1), NO_HEALTHY_REPLICA⟩

/-- `badblocks_get_badblocks_by_region` (lines 120-198): resolve the namespace
bounds, filter/clip every raw record against the window
`[ns_beg, ns_beg + ns_size - 1]`, and set
`ns_resource = ns_beg + region resource offset` (line 193). -/
def badblocks_get_badblocks_by_region (c : NsConfig) (raw : List ndctl_badblock) :
    Option badblocks :=
  match badblocks_get_namespace_bounds c with
  | none => none
  | some (ns_beg, ns_size) =>
    let ns_end := sub64 (add64 ns_beg ns_size) 1
    some ⟨add64 ns_beg c.region_resource, raw.filterMap (region_bb_filter ns_beg ns_end)⟩

/-! ### File-relative translation (`badblocks_get`, lines 498-651) -/

/-- `ext_end = ext_beg + extent.length - 1` (line 577), in u64 arithmetic. -/
def ext_end64 (e : extent) : Nat := sub64 (add64 e.offset_physical e.length) 1

/-- `bb_beg = (bb_beg > ext_beg) ? bb_beg : ext_beg` (line 585). -/
def clip_beg (bb_beg : Nat) (e : extent) : Nat :=
  if bb_beg > e.offset_physical then bb_beg else e.offset_physical

/-- `bb_end = (bb_end < ext_end) ? bb_end : ext_end` (line 586). -/
def clip_end (bb_end : Nat) (e : extent) : Nat :=
  if bb_end < ext_end64 e then bb_end else ext_end64 e

/-- `bb_len = bb_end - bb_beg + 1` (line 587), in u64 arithmetic. -/
def pre_len (bb_beg bb_end : Nat) : Nat := add64 (sub64 bb_end bb_beg) 1

/-- `bb_off = bb_beg + extent.offset_logical - extent.offset_physical`
(lines 588-589), in u64 arithmetic. -/
def pre_off (bb_beg : Nat) (e : extent) : Nat :=
  sub64 (add64 bb_beg e.offset_logical) e.offset_physical

/-- Aligned offset (lines 595-600): `not_block_aligned = bb_off & (blksize - 1)`;
if nonzero, `bb_off -= not_block_aligned`. -/
def aligned_off (blksize bb_off : Nat) : Nat :=
  let not_block_aligned := bb_off &&& (blksize - 1)
  if not_block_aligned ≠ 0 then sub64 bb_off not_block_aligned else bb_off

/-- Aligned length (lines 595-603): widen by the misalignment, then
`bb_len = ALIGN_UP(bb_len, blksize)`. -/
def aligned_len (blksize bb_off bb_len : Nat) : Nat :=
  let not_block_aligned := bb_off &&& (blksize - 1)
  ALIGN_UP (if not_block_aligned ≠ 0 then add64 bb_len not_block_aligned else bb_len) blksize

/-- The record built at lines 614-618: aligned offset, aligned length cast with
`(unsigned)`, `nhealthy = NO_HEALTHY_REPLICA`. -/
def mk_file_bad_block (blksize bb_off bb_len : Nat) : bad_block :=
  ⟨aligned_off blksize bb_off, toU32 (aligned_len blksize bb_off bb_len), NO_HEALTHY_REPLICA⟩

/-- State of the translation loop of `badblocks_get`: the (mutated) defect
interval `bb_beg`/`bb_end`, the overlap counter `bb_found`, and the output
vector `bbv`. -/
structure TrSt where
  bb_beg : Nat
  bb_end : Nat
  found : Nat
  out : List bad_block
deriving Repr, DecidableEq

/-- One iteration of the inner extent loop of `badblocks_get` (lines 574-626).
Note that `bb_beg`/`bb_end` are destructively clipped (lines 585-586), so later
extents are compared against the clipped interval. -/
def translate_step (blksize : Nat) (st : TrSt) (e : extent) : TrSt :=
  if st.bb_beg > ext_end64 e ∨ e.offset_physical > st.bb_end then st
  else
    let b := clip_beg st.bb_beg e
    let en := clip_end st.bb_end e
    { bb_beg := b, bb_end := en, found := st.found + 1,
      out := st.out ++ [mk_file_bad_block blksize (pre_off b e) (pre_len b en)] }

/-- Outer loop body of `badblocks_get` (lines 569-627) for one defect:
initialize `bb_beg`/`bb_end` from the record (lines 571-572) and run the
inner loop over all extents. -/
def translate_bb (blksize : Nat) (exl : List extent) (acc : Nat × List bad_block)
    (bb : bad_block) : Nat × List bad_block :=
  let st := exl.foldl (translate_step blksize)
    ⟨bb.offset, sub64 (add64 bb.offset bb.length) 1, acc.1, acc.2⟩
  (st.found, st.out)

/-- The whole translation loop of `badblocks_get` (lines 567-627), returning
the overlap count `bb_found` and the output vector. -/
def translate_all (blksize : Nat) (exl : List extent) (bbs : List bad_block) :
    Nat × List bad_block :=
  bbs.foldl (translate_bb blksize exl) (0, [])

/-! ### Path-scoped lookup (`badblocks_files_namespace_badblocks_bus`,
lines 294-327) and the full `badblocks_get` control flow -/

/-- Outcome of the platform lookup performed by
`badblocks_files_namespace_badblocks_bus`: `stat` failure,
`ndctl_region_namespace` failure (also covering `ndctl_new` failure in the
wrapper), "region or namespace is NULL" (path maps to no namespace), or a
found namespace together with the result of `badblocks_get_badblocks`
(`none` = that sub-call failed and left the zeroed set). -/
inductive NsLookup where
  | statFail
  | lookupFail
  | noNamespace
  | found (inner : Option badblocks)
deriving Repr, DecidableEq

/-- `badblocks_files_namespace_badblocks_bus` (lines 294-327): on stat/lookup
failure return `-1` with the caller's set untouched; with no region or
namespace return `0` with the set zeroed (lines 318-321); otherwise return the
result of `badblocks_get_badblocks` over the zeroed set. -/
def badblocks_files_namespace_badblocks_bus (q : NsLookup) (bbs : badblocks) :
    Int × badblocks :=
  match q with
  | .statFail => (-1, bbs)
  | .lookupFail => (-1, bbs)
  | .noNamespace => (0, ⟨0, []⟩)
  | .found none => (-1, ⟨0, []⟩)
  | .found (some b) => (0, b)

/-- Environment of one `badblocks_get` call: the path/namespace lookup
outcome, whether the two `Zalloc`s succeed, the `os_extents_count` result
(`none` = negative return), the `os_extents_get` result (`none` = failure),
and the index of the first failing `VEC_PUSH_BACK` in the translation loop
(`none` = all pushes succeed). -/
structure GetEnv where
  nsq : NsLookup
  allocExts : Bool
  extCount : Option Nat
  allocArr : Bool
  extGet : Option extents
  pushFail : Option Nat
deriving Repr, DecidableEq

/-- `badblocks_get` (lines 498-651).  The set is zeroed first (line 519); on
every error path `error_free_all` drops the records but keeps `ns_resource`
(lines 629-632); with zero defects the extent interface is never consulted
(lines 526-529); with zero extents the namespace records are returned verbatim
under the `(int)` cast check of line 545; otherwise the translation loop runs
and its vector is installed only when `extents > 0 && bb_found > 0`
(lines 640-648).  A push failure (lines 621-625) discards everything. -/
def badblocks_get (env : GetEnv) : Int × badblocks :=
  let rb := badblocks_files_namespace_badblocks_bus env.nsq ⟨0, []⟩
  let bbs0 := rb.2
  if rb.1 ≠ 0 then (-1, ⟨0, []⟩)
  else if bbs0.bbv.length = 0 then (0, bbs0)
  else if ¬ env.allocExts then (-1, ⟨bbs0.ns_resource, []⟩)
  else
    match env.extCount with
    | none => (-1, ⟨bbs0.ns_resource, []⟩)
    | some extCnt =>
      if extCnt = 0 then
        (if 0 ≤ i32ofU32 bbs0.bbv.length then 0 else -1, bbs0)
      else if ¬ env.allocArr then (-1, ⟨bbs0.ns_resource, []⟩)
      else
        match env.extGet with
        | none => (-1, ⟨bbs0.ns_resource, []⟩)
        | some exts =>
          let fo := translate_all exts.blksize exts.extents bbs0.bbv
          match env.pushFail with
          | some k =>
            if k < fo.2.length then (-1, ⟨bbs0.ns_resource, []⟩)
            else if 0 < fo.1 then (0, ⟨bbs0.ns_resource, fo.2⟩)
            else (0, ⟨bbs0.ns_resource, []⟩)
          | none =>
            if 0 < fo.1 then (0, ⟨bbs0.ns_resource, fo.2⟩)
            else (0, ⟨bbs0.ns_resource, []⟩)

/-- The failure conditions enumerated for `badblocks_get`: namespace lookup
failure, allocation failure, extent-count or extent-fill query failure, or a
`VEC_PUSH_BACK` failure actually reached by the translation loop.  Mirrors the
control flow of `badblocks_get`. -/
def get_has_failure (env : GetEnv) : Bool :=
  let rb := badblocks_files_namespace_badblocks_bus env.nsq ⟨0, []⟩
  let bbs0 := rb.2
  if rb.1 ≠ 0 then true
  else if bbs0.bbv.length = 0 then false
  else if ¬ env.allocExts then true
  else
    match env.extCount with
    | none => true
    | some extCnt =>
      if extCnt = 0 then false
      else if ¬ env.allocArr then true
      else
        match env.extGet with
        | none => true
        | some exts =>
          match env.pushFail with
          | some k => k < (translate_all exts.blksize exts.extents bbs0.bbv).2.length
          | none => false

/-! ### Device-DAX remediation (`badblocks_devdax_clear_one_badblock`,
lines 356-407) -/

/-- Bus-command outcomes consumed by `badblocks_devdax_clear_one_badblock`:
whether `ndctl_bus_cmd_new_ars_cap` returns a command object, the return value
of the two `ndctl_cmd_submit` calls, the `ndctl_cmd_ars_cap_get_range` result
(`none` = nonzero/failed), and the reported cleared byte count. -/
structure DevdaxClearEnv where
  cap_new_ok : Bool
  cap_submit : Int
  cap_range : Option (Nat × Nat)
  clr_submit : Int
  cleared : Nat
deriving Repr, DecidableEq

/-- `badblocks_devdax_clear_one_badblock` (lines 356-407).  Note line 381:
when `ndctl_cmd_ars_cap_get_range` fails, the code jumps to cleanup *without*
assigning `ret`, so the function returns the preceding submit's non-negative
return value. -/
def badblocks_devdax_clear_one_badblock (env : DevdaxClearEnv) (length : Nat) : Int :=
  if ¬ env.cap_new_ok then -1
  else if env.cap_submit < 0 then env.cap_submit
  else
    match env.cap_range with
    | none => env.cap_submit
    | some _ =>
      if env.clr_submit < 0 then env.clr_submit
      else if env.cleared = length then 0 else -1

/-! ### Concrete inputs used by witnesses and counterexamples -/

/-- Spec scenario "filesystem file, one defect, one covering extent":
namespace defect `{offset = 1,000,000 sectors = 512,000,000 bytes,
length = 16 sectors = 8192 bytes}`, extent
`{offset_physical = 500,000,000, offset_logical = 100,000,000,
length = 10,000,000}`, `blksize 4096`. -/
def envScenarioOneExtent : GetEnv :=
  ⟨.found (some ⟨0, [⟨512000000, 8192, NO_HEALTHY_REPLICA⟩]⟩), true, some 1, true,
   some ⟨4096, [⟨500000000, 100000000, 10000000⟩]⟩, none⟩

/-- A defect `[0,1000]` spanning two adjacent extents
(`[0,499]` and `[500,1000]` physically, with `blksize 1`). -/
def envSpanningDefect : GetEnv :=
  ⟨.found (some ⟨0, [⟨0, 1001, NO_HEALTHY_REPLICA⟩]⟩), true, some 2, true,
   some ⟨1, [⟨0, 0, 500⟩, ⟨500, 500, 501⟩]⟩, none⟩

/-- A `badblocks_get` environment whose `os_extents_count` call fails. -/
def envCountFails : GetEnv :=
  ⟨.found (some ⟨7, [⟨0, 512, NO_HEALTHY_REPLICA⟩]⟩), true, none, true, none, none⟩

/-- Spec scenario "device-DAX file": extent count `0`, one namespace defect
`{offset = 0, length = 4096}`. -/
def envDevDax : GetEnv :=
  ⟨.found (some ⟨0, [⟨0, 4096, NO_HEALTHY_REPLICA⟩]⟩), true, some 0, true, none, none⟩

/-- A platform configuration where both the pfn and the dax sub-objects are
present (the pfn branch must win). -/
def nsConfigPfn : NsConfig := ⟨some (1000, 4096), some (9999, 9999), 77, 77, 600⟩

/-! ### Arithmetic helper lemmas -/

theorem add64_eq {a b : Nat} (h : a + b < 2 ^ 64) : add64 a b = a + b := by
  unfold add64
  exact Nat.mod_eq_of_lt h

theorem sub64_eq {a b : Nat} (hb : b ≤ a) (ha : a < 2 ^ 64) : sub64 a b = a - b := by
  unfold sub64
  have hb64 : b < 2 ^ 64 := Nat.lt_of_le_of_lt hb ha
  rw [Nat.mod_eq_of_lt hb64]
  have h1 : a + (2 ^ 64 - b) = a - b + 2 ^ 64 := by omega
  rw [h1, Nat.add_mod_right]
  exact Nat.mod_eq_of_lt (by omega)

theorem ALIGN_UP_mod (n a : Nat) : ALIGN_UP n a % a = 0 := by
  unfold ALIGN_UP
  exact Nat.mul_mod_left _ a

theorem le_ALIGN_UP (n : Nat) {a : Nat} (ha : 0 < a) : n ≤ ALIGN_UP n a := by
  unfold ALIGN_UP
  have hdm := Nat.div_add_mod (n + a - 1) a
  have hmlt : (n + a - 1) % a < a := Nat.mod_lt _ ha
  rw [Nat.mul_comm]
  omega

theorem if_gt_eq_max (a b : Nat) : (if a > b then a else b) = max a b := by
  rcases Nat.lt_or_ge b a with h | h
  · rw [if_pos h, Nat.max_eq_left (Nat.le_of_lt h)]
  · rw [if_neg (Nat.not_lt.mpr h), Nat.max_eq_right h]

theorem if_lt_eq_min (a b : Nat) : (if a < b then a else b) = min a b := by
  rcases Nat.lt_or_ge a b with h | h
  · rw [if_pos h, Nat.min_eq_left (Nat.le_of_lt h)]
  · rw [if_neg (Nat.not_lt.mpr h), Nat.min_eq_right h]

/-! ### Claim theorems -/

/-- C4: in device-mapped clearing every failure of the command sequence must
yield an error return from the per-range clear.  The code violates this: when
`ndctl_cmd_ars_cap_get_range` fails after a successful capability submit
(return `0`), line 381 jumps to cleanup without assigning `ret`, so the
per-range clear reports success (`0`); a genuine cleared-count shortfall, by
contrast, correctly returns `-1`. -/
theorem devdax_clear_range_failure_reported_as_success :
    badblocks_devdax_clear_one_badblock ⟨true, 0, none, 0, 0⟩ 512 = 0 ∧
    badblocks_devdax_clear_one_badblock ⟨true, 0, some (0, 512), 0, 0⟩ 512 = -1 :=
  ⟨rfl, rfl⟩

/-- C7: when the file's extent count is `0` (device-DAX file), `badblocks_get`
returns success and the output set is exactly the namespace-relative defect
set, unchanged (the record count is assumed below `2^31` so that the `(int)`
cast at line 545 stays non-negative). -/
theorem badblocks_get_zero_extents_verbatim (env : GetEnv) (b : badblocks)
    (hns : env.nsq = .found (some b))
    (hcnt : b.bbv.length < 2 ^ 31)
    (hae : env.allocExts = true)
    (hec : env.extCount = some 0) :
    badblocks_get env = (0, b) := by
  obtain ⟨nsq, ae, ec, aa, eg, pf⟩ := env
  simp only at hns hae hec
  subst hns hae hec
  by_cases hz : b.bbv.length = 0
  · simp [badblocks_get, badblocks_files_namespace_badblocks_bus, hz]
  · simp only [badblocks_get, badblocks_files_namespace_badblocks_bus]
    rw [if_neg (by decide)]
    rw [if_neg hz]
    have hpos : 0 ≤ i32ofU32 b.bbv.length := by
      unfold i32ofU32
      rw [if_pos hcnt]
      exact Int.ofNat_nonneg _
    simp [hpos]

/-- C7 witness: the spec's device-DAX scenario — extent count `0`, one
namespace defect `{offset = 0, length = 4096}` — is returned verbatim. -/
theorem badblocks_get_zero_extents_verbatim_witness :
    badblocks_get envDevDax = (0, ⟨0, [⟨0, 4096, NO_HEALTHY_REPLICA⟩]⟩) :=
  badblocks_get_zero_extents_verbatim envDevDax ⟨0, [⟨0, 4096, NO_HEALTHY_REPLICA⟩]⟩
    rfl (by decide) rfl rfl

/-- C9 counterexample: in the spec's "one defect, one covering extent"
scenario the defect's physical bytes `[512000000, 512008191]` lie entirely
outside the extent's physical range `[500000000, 509999999]`, so
`badblocks_get` does not output the claimed record
`{offset = 99500000, length = 8192}` (it outputs nothing). -/
theorem scenario_one_extent_claimed_record_absent :
    (badblocks_get envScenarioOneExtent).2.bbv ≠
      [⟨99500000, 8192, NO_HEALTHY_REPLICA⟩] ∧
    512000000 > ext_end64 ⟨500000000, 100000000, 10000000⟩ := by
  constructor
  · have h : badblocks_get envScenarioOneExtent = (0, ⟨0, []⟩) := by decide
    rw [h]
    decide
  · decide

/-- C9 (amended): in the spec's scenario the defect does not overlap the
extent, so `badblocks_get` returns success with an empty set. -/
theorem scenario_one_extent_empty_success :
    badblocks_get envScenarioOneExtent = (0, ⟨0, []⟩) := by decide

/-- C5: whenever `badblocks_get` fails — namespace lookup failure, allocation
failure, extent-count or extent-fill query failure, or a `VEC_PUSH_BACK`
failure reached by the translation loop — it returns `-1` and leaves the
caller's set with no records. -/
theorem badblocks_get_failure_empty (env : GetEnv)
    (h : get_has_failure env = true) :
    (badblocks_get env).1 = -1 ∧ (badblocks_get env).2.bbv = [] := by
  obtain ⟨nsq, ae, ec, aa, eg, pf⟩ := env
  cases nsq with
  | statFail => exact ⟨rfl, rfl⟩
  | lookupFail => exact ⟨rfl, rfl⟩
  | noNamespace => simp [get_has_failure, badblocks_files_namespace_badblocks_bus] at h
  | found inner =>
    cases inner with
    | none => exact ⟨rfl, rfl⟩
    | some b =>
      by_cases hz : b.bbv.length = 0
      · simp [get_has_failure, badblocks_files_namespace_badblocks_bus, hz] at h
      · cases ae with
        | false => simp [badblocks_get, badblocks_files_namespace_badblocks_bus, hz]
        | true =>
          cases ec with
          | none => simp [badblocks_get, badblocks_files_namespace_badblocks_bus, hz]
          | some n =>
            cases n with
            | zero => simp [get_has_failure, badblocks_files_namespace_badblocks_bus, hz] at h
            | succ m =>
              cases aa with
              | false =>
                simp [badblocks_get, badblocks_files_namespace_badblocks_bus, hz]
              | true =>
                cases eg with
                | none =>
                  simp [badblocks_get, badblocks_files_namespace_badblocks_bus, hz]
                | some exts =>
                  cases pf with
                  | none =>
                    simp [get_has_failure,
                      badblocks_files_namespace_badblocks_bus, hz] at h
                  | some k =>
                    simp [get_has_failure,
                      badblocks_files_namespace_badblocks_bus, hz] at h
                    simp [badblocks_get, badblocks_files_namespace_badblocks_bus,
                      hz, h]

/-- C5 witness: an environment whose `os_extents_count` call fails makes
`badblocks_get` return `-1` with an empty record list. -/
theorem badblocks_get_failure_empty_witness :
    (badblocks_get envCountFails).1 = -1 ∧ (badblocks_get envCountFails).2.bbv = [] :=
  badblocks_get_failure_empty envCountFails (by decide)

/-- C6: `badblocks_get` returns success with an empty set in the two
documented empty states — path mapping to no recognized namespace, and
namespace reporting zero raw defects — and in both the result does not depend
on any extent-interface outcome (the extent interface is never consulted). -/
theorem badblocks_get_empty_states (env : GetEnv) (b : badblocks)
    (h : env.nsq = .noNamespace ∨ (env.nsq = .found (some b) ∧ b.bbv = [])) :
    (badblocks_get env).1 = 0 ∧ (badblocks_get env).2.bbv = [] ∧
    ∀ ae ec aa eg pf, badblocks_get ⟨env.nsq, ae, ec, aa, eg, pf⟩ = badblocks_get env := by
  obtain ⟨nsq, ae0, ec0, aa0, eg0, pf0⟩ := env
  simp only at h
  rcases h with h | ⟨h, hb⟩
  · subst h
    refine ⟨rfl, rfl, ?_⟩
    intro ae ec aa eg pf
    rfl
  · subst h
    refine ⟨?_, ?_, ?_⟩
    · simp [badblocks_get, badblocks_files_namespace_badblocks_bus, hb]
    · simp [badblocks_get, badblocks_files_namespace_badblocks_bus, hb]
    · intro ae ec aa eg pf
      simp [badblocks_get, badblocks_files_namespace_badblocks_bus, hb]

/-- C6 witness: a path mapping to no recognized namespace yields success, no
records, and a result independent of the extent environment. -/
theorem badblocks_get_empty_states_witness :
    (badblocks_get ⟨.noNamespace, true, some 1, true, none, none⟩).1 = 0 ∧
    (badblocks_get ⟨.noNamespace, true, some 1, true, none, none⟩).2.bbv = [] ∧
    ∀ ae ec aa eg pf, badblocks_get ⟨.noNamespace, ae, ec, aa, eg, pf⟩ =
      badblocks_get ⟨.noNamespace, true, some 1, true, none, none⟩ :=
  badblocks_get_empty_states ⟨.noNamespace, true, some 1, true, none, none⟩ ⟨0, []⟩
    (Or.inl rfl)

/-- C8: the namespace bounds resolver fires exactly one kind branch (pfn if
present, else dax, else raw/btt — captured by `nsKindAccessors`); any selected
accessor or the region accessor returning `ULLONG_MAX` makes it fail; and on
success the returned offset is the kind-specific resource offset minus the
region's resource offset. -/
theorem namespace_bounds_kind_dispatch (c : NsConfig) :
    (badblocks_get_namespace_bounds c =
      if (nsKindAccessors c).1 = ULLONG_MAX ∨ (nsKindAccessors c).2 = ULLONG_MAX ∨
          c.region_resource = ULLONG_MAX then none
      else some (sub64 (nsKindAccessors c).1 c.region_resource, (nsKindAccessors c).2)) ∧
    (∀ off sz, badblocks_get_namespace_bounds c = some (off, sz) →
      c.region_resource ≤ (nsKindAccessors c).1 →
      (nsKindAccessors c).1 < 2 ^ 64 →
      off = (nsKindAccessors c).1 - c.region_resource ∧ sz = (nsKindAccessors c).2) := by
  obtain ⟨pfn, dax, nres, nsz, rres⟩ := c
  have hmain : badblocks_get_namespace_bounds ⟨pfn, dax, nres, nsz, rres⟩ =
      if (nsKindAccessors ⟨pfn, dax, nres, nsz, rres⟩).1 = ULLONG_MAX ∨
          (nsKindAccessors ⟨pfn, dax, nres, nsz, rres⟩).2 = ULLONG_MAX ∨
          rres = ULLONG_MAX then none
      else some (sub64 (nsKindAccessors ⟨pfn, dax, nres, nsz, rres⟩).1 rres,
        (nsKindAccessors ⟨pfn, dax, nres, nsz, rres⟩).2) := by
    cases pfn with
    | some p =>
      obtain ⟨r, s⟩ := p
      by_cases h1 : r = ULLONG_MAX
      · simp [badblocks_get_namespace_bounds, nsKindAccessors, boundsFinish, h1]
      · by_cases h2 : s = ULLONG_MAX
        · simp [badblocks_get_namespace_bounds, nsKindAccessors, boundsFinish, h1, h2]
        · by_cases h3 : rres = ULLONG_MAX
          · simp [badblocks_get_namespace_bounds, nsKindAccessors, boundsFinish,
              h1, h2, h3]
          · simp [badblocks_get_namespace_bounds, nsKindAccessors, boundsFinish,
              h1, h2, h3]
    | none =>
      cases dax with
      | some p =>
        obtain ⟨r, s⟩ := p
        by_cases h1 : r = ULLONG_MAX
        · simp [badblocks_get_namespace_bounds, nsKindAccessors, boundsFinish, h1]
        · by_cases h2 : s = ULLONG_MAX
          · simp [badblocks_get_namespace_bounds, nsKindAccessors, boundsFinish, h1, h2]
          · by_cases h3 : rres = ULLONG_MAX
            · simp [badblocks_get_namespace_bounds, nsKindAccessors, boundsFinish,
                h1, h2, h3]
            · simp [badblocks_get_namespace_bounds, nsKindAccessors, boundsFinish,
                h1, h2, h3]
      | none =>
        by_cases h1 : nres = ULLONG_MAX
        · simp [badblocks_get_namespace_bounds, nsKindAccessors, boundsFinish, h1]
        · by_cases h2 : nsz = ULLONG_MAX
          · simp [badblocks_get_namespace_bounds, nsKindAccessors, boundsFinish, h1, h2]
          · by_cases h3 : rres = ULLONG_MAX
            · simp [badblocks_get_namespace_bounds, nsKindAccessors, boundsFinish,
                h1, h2, h3]
            · simp [badblocks_get_namespace_bounds, nsKindAccessors, boundsFinish,
                h1, h2, h3]
  refine ⟨hmain, ?_⟩
  intro off sz h hle hlt
  rw [hmain] at h
  by_cases hc : (nsKindAccessors ⟨pfn, dax, nres, nsz, rres⟩).1 = ULLONG_MAX ∨
      (nsKindAccessors ⟨pfn, dax, nres, nsz, rres⟩).2 = ULLONG_MAX ∨ rres = ULLONG_MAX
  · rw [if_pos hc] at h
    exact absurd h (by simp)
  · rw [if_neg hc] at h
    rw [Option.some.injEq, Prod.mk.injEq] at h
    obtain ⟨ho, hs⟩ := h
    exact ⟨ho ▸ (sub64_eq hle hlt).symm ▸ rfl, hs.symm⟩

/-- C8 witness: with both sub-objects present the pfn branch decides the
result, region-relative. -/
theorem namespace_bounds_kind_dispatch_witness :
    (400 : Nat) = (nsKindAccessors nsConfigPfn).1 - nsConfigPfn.region_resource ∧
    (4096 : Nat) = (nsKindAccessors nsConfigPfn).2 :=
  (namespace_bounds_kind_dispatch nsConfigPfn).2 400 4096 (by decide) (by decide)
    (by decide)

/-- C10: every record emitted by the extent-translation path of
`badblocks_get` stores as its length the 64-bit block-aligned length reduced
modulo `2^32` (the `(unsigned)` cast at line 616); concretely, an aligned
length of `2^32 + 4096` (≥ 4 GiB) is stored wrapped as `4096`. -/
theorem translation_length_cast_u32 :
    (∀ (bs : Nat) (st : TrSt) (e : extent) (r : bad_block),
      r ∈ (translate_step bs st e).out →
      r ∈ st.out ∨
        r.length = aligned_len bs (pre_off (clip_beg st.bb_beg e) e)
          (pre_len (clip_beg st.bb_beg e) (clip_end st.bb_end e)) % 2 ^ 32) ∧
    aligned_len 4096 3584 (2 ^ 32 - 512) = 2 ^ 32 + 4096 ∧
    mk_file_bad_block 4096 3584 (2 ^ 32 - 512) = ⟨0, 4096, NO_HEALTHY_REPLICA⟩ := by
  refine ⟨?_, by decide, by decide⟩
  intro bs st e r hr
  unfold translate_step at hr
  by_cases hov : st.bb_beg > ext_end64 e ∨ e.offset_physical > st.bb_end
  · rw [if_pos hov] at hr
    exact Or.inl hr
  · rw [if_neg hov] at hr
    simp only [List.mem_append, List.mem_singleton] at hr
    rcases hr with hr | hr
    · exact Or.inl hr
    · right
      rw [hr]
      rfl

/-- C10 witness: the record emitted for the defect `[0, 511]` over the extent
`{0, 0, 512}` with block size `1` stores the aligned length modulo `2^32`. -/
theorem translation_length_cast_u32_witness :
    (⟨0, 512, NO_HEALTHY_REPLICA⟩ : bad_block) ∈ ([] : List bad_block) ∨
    (⟨0, 512, NO_HEALTHY_REPLICA⟩ : bad_block).length =
      aligned_len 1 (pre_off (clip_beg 0 ⟨0, 0, 512⟩) ⟨0, 0, 512⟩)
        (pre_len (clip_beg 0 ⟨0, 0, 512⟩) (clip_end 511 ⟨0, 0, 512⟩)) % 2 ^ 32 :=
  translation_length_cast_u32.1 1 ⟨0, 511, 0, []⟩ ⟨0, 0, 512⟩
    ⟨0, 512, NO_HEALTHY_REPLICA⟩ (by decide)

/-- C1: for every overlap `[beg, end]` between a (running) defect interval and
an extent, the aligned output range produced by lines 595-616 is block-aligned
in both offset and length, and covers the whole overlap translated to the
file-relative frame (`aligned_off ≤ beg + D` and `end + D < aligned_off +
aligned_len`, where `D` shifts by `offset_logical - offset_physical`):
alignment only widens, never drops covered bytes. -/
theorem alignment_never_shrinks (k bs beg e2 : Nat) (ext : extent)
    (hbs : bs = 2 ^ k)
    (hpb : ext.offset_physical ≤ beg)
    (hbe : beg ≤ e2)
    (hcap : e2 + ext.offset_logical + bs < 2 ^ 64) :
    aligned_off bs (pre_off beg ext) % bs = 0 ∧
    aligned_len bs (pre_off beg ext) (pre_len beg e2) % bs = 0 ∧
    aligned_off bs (pre_off beg ext) ≤ beg + ext.offset_logical - ext.offset_physical ∧
    e2 + ext.offset_logical - ext.offset_physical <
      aligned_off bs (pre_off beg ext) +
      aligned_len bs (pre_off beg ext) (pre_len beg e2) := by
  have hbsp : 0 < bs := by
    rw [hbs]
    exact Nat.pos_pow_of_pos k (by decide)
  have hoff_lt : beg + ext.offset_logical < 2 ^ 64 := by omega
  have hadd : add64 beg ext.offset_logical = beg + ext.offset_logical :=
    add64_eq hoff_lt
  set off0 := beg + ext.offset_logical - ext.offset_physical with hoff0
  have hpre_off : pre_off beg ext = off0 := by
    unfold pre_off
    rw [hadd]
    exact sub64_eq (Nat.le_trans hpb (Nat.le_add_right _ _)) hoff_lt
  set len0 := e2 - beg + 1 with hlen0def
  have hlen0 : pre_len beg e2 = len0 := by
    unfold pre_len
    rw [sub64_eq hbe (by omega)]
    exact add64_eq (by omega)
  have hmask : off0 &&& (bs - 1) = off0 % bs := by
    rw [hbs]
    exact Nat.and_pow_two_sub_one_eq_mod off0 k
  have hnba_le : off0 % bs ≤ off0 := Nat.mod_le off0 bs
  have hnba_lt : off0 % bs < bs := Nat.mod_lt off0 hbsp
  have hoff0_lt : off0 < 2 ^ 64 := by omega
  have hao : aligned_off bs (pre_off beg ext) = off0 - off0 % bs := by
    rw [hpre_off]
    show (if off0 &&& (bs - 1) ≠ 0 then sub64 off0 (off0 &&& (bs - 1)) else off0) = _
    rw [hmask]
    by_cases hz : off0 % bs = 0
    · rw [if_neg (by simp [hz]), hz, Nat.sub_zero]
    · rw [if_pos hz, sub64_eq hnba_le hoff0_lt]
  have hal : aligned_len bs (pre_off beg ext) (pre_len beg e2)
      = ALIGN_UP (if off0 % bs ≠ 0 then len0 + off0 % bs else len0) bs := by
    rw [hpre_off, hlen0]
    show ALIGN_UP (if off0 &&& (bs - 1) ≠ 0 then add64 len0 (off0 &&& (bs - 1))
      else len0) bs = _
    rw [hmask]
    by_cases hz : off0 % bs = 0
    · rw [if_neg (by simp [hz]), if_neg (by simp [hz])]
    · rw [if_pos hz, if_pos hz, add64_eq (by omega)]
  refine ⟨?_, ?_, ?_, ?_⟩
  · rw [hao]
    have hdm := Nat.div_add_mod off0 bs
    have h2 : off0 - off0 % bs = bs * (off0 / bs) := by omega
    rw [h2, Nat.mul_mod_right]
  · rw [hal]
    exact ALIGN_UP_mod _ bs
  · rw [hao]
    omega
  · rw [hao, hal]
    have hup : (if off0 % bs ≠ 0 then len0 + off0 % bs else len0) ≤
        ALIGN_UP (if off0 % bs ≠ 0 then len0 + off0 % bs else len0) bs :=
      le_ALIGN_UP _ hbsp
    by_cases hz : off0 % bs = 0
    · rw [if_neg (by simp [hz])] at hup ⊢
      omega
    · rw [if_pos hz] at hup ⊢
      omega

/-- C1 witness: a concrete overlap `[505000000, 505008191]` over the extent
`{500000000, 100000000, 10000000}` with block size `4096` is fully covered by
the block-aligned output range. -/
theorem alignment_never_shrinks_witness :
    aligned_off 4096 (pre_off 505000000 ⟨500000000, 100000000, 10000000⟩) % 4096 = 0 ∧
    aligned_len 4096 (pre_off 505000000 ⟨500000000, 100000000, 10000000⟩)
      (pre_len 505000000 505008191) % 4096 = 0 ∧
    aligned_off 4096 (pre_off 505000000 ⟨500000000, 100000000, 10000000⟩) ≤
      505000000 + 100000000 - 500000000 ∧
    505008191 + 100000000 - 500000000 <
      aligned_off 4096 (pre_off 505000000 ⟨500000000, 100000000, 10000000⟩) +
      aligned_len 4096 (pre_off 505000000 ⟨500000000, 100000000, 10000000⟩)
        (pre_len 505000000 505008191) :=
  alignment_never_shrinks 12 4096 505000000 505008191
    ⟨500000000, 100000000, 10000000⟩ rfl (by decide) (by decide) (by decide)

/-- C2 counterexample: the defect `[0, 1000]` spans the two extents
`[0, 499]` and `[500, 1000]`.  The second extent overlaps the defect's
*original* interval (second conjunct), yet `badblocks_get` emits only the
single record produced for the first extent, because lines 585-586
destructively clip `bb_beg`/`bb_end` to `[0, 499]` before the second extent
is examined. -/
theorem spanning_defect_second_overlap_dropped :
    (badblocks_get envSpanningDefect).2.bbv = [⟨0, 500, NO_HEALTHY_REPLICA⟩] ∧
    ¬ ((0 : Nat) > ext_end64 ⟨500, 500, 501⟩ ∨
        (⟨500, 500, 501⟩ : extent).offset_physical > 1000) :=
  ⟨by decide, by decide⟩

/-- C2 (amended): the overlap is computed against the *running* defect
interval held in `bb_beg`/`bb_end` (progressively clipped by each earlier
overlapping extent), and each extent overlapping that running interval yields
exactly one record whose pre-alignment offset is
`beg + offset_logical - offset_physical` and whose pre-alignment length is
`end - beg + 1`, where `[beg, end]` is the intersection of the running
interval with the extent's physical range. -/
theorem translate_step_running_interval (bs : Nat) (st : TrSt) (e : extent)
    (hov : ¬ (st.bb_beg > ext_end64 e ∨ e.offset_physical > st.bb_end))
    (hlen : 1 ≤ e.length)
    (hext : e.offset_physical + e.length < 2 ^ 64)
    (hbb : st.bb_beg ≤ st.bb_end)
    (hcap : st.bb_end + e.offset_logical + 1 < 2 ^ 64) :
    translate_step bs st e =
      { bb_beg := max st.bb_beg e.offset_physical,
        bb_end := min st.bb_end (e.offset_physical + e.length - 1),
        found := st.found + 1,
        out := st.out ++ [mk_file_bad_block bs
          (max st.bb_beg e.offset_physical + e.offset_logical - e.offset_physical)
          (min st.bb_end (e.offset_physical + e.length - 1) -
            max st.bb_beg e.offset_physical + 1)] } := by
  have hee : ext_end64 e = e.offset_physical + e.length - 1 := by
    unfold ext_end64
    rw [add64_eq hext]
    exact sub64_eq (by omega) hext
  have hov' := hov
  rw [hee] at hov'
  push_neg at hov'
  obtain ⟨hov1, hov2⟩ := hov'
  have hb' : clip_beg st.bb_beg e = max st.bb_beg e.offset_physical := by
    unfold clip_beg
    exact if_gt_eq_max _ _
  have he' : clip_end st.bb_end e = min st.bb_end (e.offset_physical + e.length - 1) := by
    unfold clip_end
    rw [hee]
    exact if_lt_eq_min _ _
  have hben : max st.bb_beg e.offset_physical ≤
      min st.bb_end (e.offset_physical + e.length - 1) := by omega
  have hpo : pre_off (max st.bb_beg e.offset_physical) e
      = max st.bb_beg e.offset_physical + e.offset_logical - e.offset_physical := by
    unfold pre_off
    rw [add64_eq (by omega)]
    exact sub64_eq (by omega) (by omega)
  have hpl : pre_len (max st.bb_beg e.offset_physical)
      (min st.bb_end (e.offset_physical + e.length - 1))
      = min st.bb_end (e.offset_physical + e.length - 1) -
        max st.bb_beg e.offset_physical + 1 := by
    unfold pre_len
    rw [sub64_eq hben (by omega)]
    exact add64_eq (by omega)
  unfold translate_step
  rw [if_neg hov]
  show TrSt.mk (clip_beg st.bb_beg e) (clip_end st.bb_end e) (st.found + 1)
    (st.out ++ [mk_file_bad_block bs (pre_off (clip_beg st.bb_beg e) e)
      (pre_len (clip_beg st.bb_beg e) (clip_end st.bb_end e))]) = _
  rw [hb', he', hpo, hpl]

/-- C2 witness: the running interval `[600, 1000]` against the extent
`{500, 500, 501}` (physical `[500, 1000]`) yields exactly one record with the
stated pre-alignment offset and length. -/
theorem translate_step_running_interval_witness :
    translate_step 1 ⟨600, 1000, 0, []⟩ ⟨500, 500, 501⟩ =
      { bb_beg := max 600 500,
        bb_end := min 1000 (500 + 501 - 1),
        found := 0 + 1,
        out := [] ++ [mk_file_bad_block 1 (max 600 500 + 500 - 500)
          (min 1000 (500 + 501 - 1) - max 600 500 + 1)] } :=
  translate_step_running_interval 1 ⟨600, 1000, 0, []⟩ ⟨500, 500, 501⟩ (by decide)
    (by decide) (by decide) (by decide) (by decide)

/-- C3 counterexample: in the window `[0, 2^33 - 1]`, a raw defect of
`2^23` sectors (4 GiB) starting at offset `0` produces a record of length `0`
(the `(unsigned)` cast at line 176 wraps), whereas the clipped interval
`[max(bb_beg, ns_beg), min(bb_end, ns_end)]` has size `2^32`, so the record's
interval does not equal the clipped interval. -/
theorem region_clip_length_truncated :
    region_bb_filter 0 (sub64 (add64 0 (2 ^ 33)) 1) ⟨0, 2 ^ 23⟩ =
      some ⟨0, 0, NO_HEALTHY_REPLICA⟩ ∧
    min (SEC2B 0 + SEC2B (2 ^ 23) - 1) (2 ^ 33 - 1) - max (SEC2B 0) 0 + 1 = 2 ^ 32 ∧
    (0 : Nat) ≠ 2 ^ 32 :=
  ⟨by decide, by decide, by decide⟩

/-- C3 (amended): for region-scoped collection, an output record exists iff
`bb_beg ≤ ns_end ∧ ns_beg ≤ bb_end`, and the record is the clipped interval
`[max(bb_beg, ns_beg), min(bb_end, ns_end)]` translated by `-ns_beg`, with
its *length reduced modulo `2^32`* by the `(unsigned)` cast, and
healthy-replica count `-1`. -/
theorem region_clip_to_window (ns_beg ns_size : Nat) (bb : ndctl_badblock)
    (hl : 1 ≤ bb.len)
    (hbb : SEC2B bb.offset + SEC2B bb.len < 2 ^ 64)
    (hs : 1 ≤ ns_size)
    (hns : ns_beg + ns_size < 2 ^ 64) :
    (region_bb_filter ns_beg (sub64 (add64 ns_beg ns_size) 1) bb ≠ none ↔
      SEC2B bb.offset ≤ ns_beg + ns_size - 1 ∧
      ns_beg ≤ SEC2B bb.offset + SEC2B bb.len - 1) ∧
    (SEC2B bb.offset ≤ ns_beg + ns_size - 1 →
      ns_beg ≤ SEC2B bb.offset + SEC2B bb.len - 1 →
      region_bb_filter ns_beg (sub64 (add64 ns_beg ns_size) 1) bb =
        some ⟨max (SEC2B bb.offset) ns_beg - ns_beg,
          (min (SEC2B bb.offset + SEC2B bb.len - 1) (ns_beg + ns_size - 1) -
            max (SEC2B bb.offset) ns_beg + 1) % 2 ^ 32,
          NO_HEALTHY_REPLICA⟩) := by
  have hL1 : 1 ≤ SEC2B bb.len := by
    unfold SEC2B
    omega
  have hnsend : sub64 (add64 ns_beg ns_size) 1 = ns_beg + ns_size - 1 := by
    rw [add64_eq hns]
    exact sub64_eq (by omega) hns
  have hbbend : sub64 (add64 (SEC2B bb.offset) (SEC2B bb.len)) 1
      = SEC2B bb.offset + SEC2B bb.len - 1 := by
    rw [add64_eq hbb]
    exact sub64_eq (by omega) hbb
  constructor
  · simp only [region_bb_filter, hnsend, hbbend]
    by_cases hov : SEC2B bb.offset > ns_beg + ns_size - 1 ∨
        ns_beg > SEC2B bb.offset + SEC2B bb.len - 1
    · rw [if_pos hov]
      simp only [ne_eq, not_true_eq_false, false_iff]
      omega
    · rw [if_neg hov]
      exact ⟨fun _ => by omega, fun _ => Option.some_ne_none _⟩
  · intro h1 h2
    simp only [region_bb_filter, hnsend, hbbend]
    rw [if_neg (by omega), if_gt_eq_max, if_lt_eq_min]
    have hmaxmin : max (SEC2B bb.offset) ns_beg ≤
        min (SEC2B bb.offset + SEC2B bb.len - 1) (ns_beg + ns_size - 1) := by omega
    rw [sub64_eq (Nat.le_max_right _ _) (by omega),
      sub64_eq hmaxmin (by omega), add64_eq (by omega)]
    rfl

/-- C3 (amended) witness: window `[0, 2^20 - 1]`, raw defect of 16 sectors at
offset 0: the emitted record is the clipped interval translated by `-ns_beg`
with the length cast modulo `2^32`. -/
theorem region_clip_to_window_witness :
    region_bb_filter 0 (sub64 (add64 0 (2 ^ 20)) 1) ⟨0, 16⟩ =
      some ⟨max (SEC2B 0) 0 - 0,
        (min (SEC2B 0 + SEC2B 16 - 1) (0 + 2 ^ 20 - 1) - max (SEC2B 0) 0 + 1) % 2 ^ 32,
        NO_HEALTHY_REPLICA⟩ :=
  (region_clip_to_window 0 (2 ^ 20) ⟨0, 16⟩ (by decide) (by decide) (by decide)
    (by decide)).2 (by decide) (by decide)

end Pmdk
